import Mathlib

/-!
Shallow embedding of `src/main.rs` of pistacchio/rcrpg-rust, a text-based
dungeon-exploration game, together with proofs about its command handlers.

Modelling choices:
* Rust `i32` coordinates are modelled as `Int` (no claim depends on wrap-around).
* Rust `HashSet<Object>` (inventories, room floors) is modelled as `Finset Object`:
  only membership and set-level mutation are observable.
* Rust `HashMap<Location, Room>` (the room store) is modelled as an association
  list `List (Location × Room)`; lookup takes the first matching key, insertion
  via the `entry(..).or_insert_with` pattern appends only when the key is absent.
* Rust `HashSet<String>` alias sets are modelled as `List String` with
  membership-preserving insert (insert is a no-op when the string is present).
* `println!` output is modelled by returning a `List String` of emitted lines.
* The RNG used by `Room::with_random_objects` is modelled by passing the randomly
  drawn object set as an explicit parameter to `dig`.
* Indexing `dungeon.rooms[&player.location]` panics in Rust when the key is
  absent; `roomAtD` totalizes this with a default empty room. Every theorem that
  depends on the current room either hypothesizes its presence or holds for the
  default as well.
-/

namespace RCRPG

-- LOCATION: `struct Location(i32, i32, i32)` with component-wise `Add`.

structure Location where
  x : Int
  y : Int
  z : Int
deriving DecidableEq, Repr

instance : Add Location :=
  ⟨fun a b => ⟨a.x + b.x, a.y + b.y, a.z + b.z⟩⟩

theorem Location.add_def (a b : Location) :
    a + b = ⟨a.x + b.x, a.y + b.y, a.z + b.z⟩ := rfl

/-- `Debug for Location`: `write!(f, "({}, {}, {})", ...)`. -/
def Location.debugStr (l : Location) : String :=
  "(" ++ toString l.x ++ ", " ++ toString l.y ++ ", " ++ toString l.z ++ ")"

-- OBJECT: `enum Object { Ladder, Sledge, Gold }`.

inductive Object where
  | Ladder
  | Sledge
  | Gold
deriving DecidableEq, Repr

instance : Fintype Object :=
  ⟨⟨{Object.Ladder, Object.Sledge, Object.Gold}, by decide⟩, by intro x; cases x <;> decide⟩

/-- `Display for Object`. -/
def Object.display : Object → String
  | .Ladder => "a ladder"
  | .Sledge => "a sledge"
  | .Gold => "some gold"

/-- `Object::from_string`. -/
def Object.from_string (s : String) : Option Object :=
  if s = "ladder" then some .Ladder
  else if s = "sledge" then some .Sledge
  else if s = "gold" then some .Gold
  else none

-- DIRECTION: `enum Direction` plus the fixed `DIRECTION_MAPPING` table.

inductive Direction where
  | North
  | South
  | West
  | East
  | Down
  | Up
deriving DecidableEq, Repr

instance : Fintype Direction :=
  ⟨⟨{Direction.North, Direction.South, Direction.West,
     Direction.East, Direction.Down, Direction.Up}, by decide⟩,
   by intro x; cases x <;> decide⟩

/-- `const DIRECTION_MAPPING: [(Location, Direction); 6]`. -/
def DIRECTION_MAPPING : List (Location × Direction) :=
  [(⟨0, -1, 0⟩, .North),
   (⟨0, 1, 0⟩, .South),
   (⟨-1, 0, 0⟩, .West),
   (⟨1, 0, 0⟩, .East),
   (⟨0, 0, 1⟩, .Down),
   (⟨0, 0, -1⟩, .Up)]

/-- `Display for Direction`. -/
def Direction.display : Direction → String
  | .North => "north"
  | .South => "south"
  | .West => "west"
  | .East => "east"
  | .Down => "down"
  | .Up => "up"

/-- `Direction::from_string`. -/
def Direction.from_string (s : String) : Option Direction :=
  if s = "north" then some .North
  else if s = "south" then some .South
  else if s = "west" then some .West
  else if s = "east" then some .East
  else if s = "down" then some .Down
  else if s = "up" then some .Up
  else none

/-- `Direction::to_location`: lookup in `DIRECTION_MAPPING` (the `unwrap` is
totalized with a default that is never reached, since every direction occurs
in the table). -/
def Direction.to_location (d : Direction) : Location :=
  ((DIRECTION_MAPPING.find? (fun p => p.2 = d)).map Prod.fst).getD ⟨0, 0, 0⟩

-- ROOM and its builders.

/-- `type Invetory = HashSet<Object>` (sic). -/
abbrev Invetory := Finset Object

structure Room where
  description : Option String
  objects : Invetory
deriving DecidableEq

/-- `Room::new`. -/
def Room.new : Room :=
  { description := none, objects := ∅ }

/-- `Room::with_description`. -/
def Room.with_description (r : Room) (descrition : String) : Room :=
  { r with description := some descrition }

/-- `Room::with_objects`: `self.objects.extend(objects)`. -/
def Room.with_objects (r : Room) (objects : List Object) : Room :=
  { r with objects := r.objects ∪ objects.toFinset }

/-- `Room::with_random_objects`: extends the (empty) object set with the
randomly drawn subset of {Sledge, Ladder, Gold}; the draw is the explicit
parameter `rnd`. -/
def Room.with_random_objects (r : Room) (rnd : Finset Object) : Room :=
  { r with objects := r.objects ∪ rnd }

-- ROOM STORE: `HashMap<Location, Room>` as an association list.

abbrev RoomStore := List (Location × Room)

/-- `rooms.contains_key(&l)`. -/
def containsLoc (d : RoomStore) (l : Location) : Bool :=
  d.any (fun e => e.1 = l)

/-- `rooms[&l]` / `rooms.get(&l)`, totalized with an empty default room
(Rust panics when the key is absent). -/
def roomAtD (d : RoomStore) (l : Location) : Room :=
  (((d.find? (fun e => e.1 = l)).map Prod.snd).getD Room.new)

/-- `rooms.get_mut(&l)` followed by a mutation of the room's object set:
rewrite every entry whose key is `l` (keys are unique in the Rust `HashMap`;
when the key is absent Rust panics, here the map is unchanged). -/
def updateObjects (d : RoomStore) (l : Location) (f : Invetory → Invetory) : RoomStore :=
  d.map (fun e => if e.1 = l then (e.1, { e.2 with objects := f e.2.objects }) else e)

/-- `rooms.entry(l).or_insert_with(factory)`: create-if-absent. -/
def insertRoomIfAbsent (d : RoomStore) (l : Location) (r : Room) : RoomStore :=
  if containsLoc d l then d else d ++ [(l, r)]

/-- `Dungeon::new`: the two fixed initial rooms. -/
def Dungeon.new : RoomStore :=
  [(⟨0, 0, 0⟩, (Room.new.with_description
      "The room where it all started...").with_objects [.Ladder, .Sledge]),
   (⟨1, 1, 5⟩, Room.new.with_description "You found it! Lots of gold!")]

/-- `Dungeon::exits_for_room`. -/
def exits_for_room (d : RoomStore) (location : Location) : List Direction :=
  DIRECTION_MAPPING.filterMap (fun p =>
    if containsLoc d (location + p.1) then some p.2 else none)

-- PLAYER.

structure Player where
  location : Location
  inventory : Invetory
  equipped : Option Object
deriving DecidableEq

-- COMMANDS and the alias table.

inductive Command where
  | North
  | South
  | West
  | East
  | Down
  | Up
  | Help
  | Dig
  | Look
  | Inventory
  | Take
  | Drop
  | Equip
  | Unequip
  | Alias
deriving DecidableEq

/-- `type CommandAliases = Vec<(HashSet<String>, Command)>`; the `HashSet<String>`
is a `List String` observed only through membership. -/
abbrev CommandAliases := List (List String × Command)

/-- `HashSet<String>::insert`: membership-preserving insert. -/
def insertStr (s : String) (l : List String) : List String :=
  if s ∈ l then l else l ++ [s]

/-- `default_aliases`. -/
def default_aliases : CommandAliases :=
  [(["n", "north"], .North),
   (["s", "south"], .South),
   (["w", "west"], .West),
   (["e", "east"], .East),
   (["d", "down"], .Down),
   (["u", "up"], .Up),
   (["help"], .Help),
   (["dig"], .Dig),
   (["l", "look"], .Look),
   (["i", "inventory"], .Inventory),
   (["take"], .Take),
   (["drop"], .Drop),
   (["equip"], .Equip),
   (["unequip"], .Unequip),
   (["alias"], .Alias)]

/-- Rust `str::to_lowercase` (only ASCII letters occur in commands and
aliases, so ASCII lowering models it faithfully here). -/
def toLowerStr (s : String) : String :=
  ⟨s.data.map Char.toLower⟩

/-- `find_command`: lower-case, then first pair whose alias set contains it. -/
def find_command (command : String) (aliases : CommandAliases) : Option Command :=
  (aliases.find? (fun a => toLowerStr command ∈ a.1)).map Prod.snd

/-- `help`: the fixed instructional text (one `println!`). -/
def helpText : String :=
  "You need a sledge to dig rooms and ladders to go upwards.\nValid commands are: directions (north, south...), dig, take, drop, equip, inventory and look.\nAdditionally you can tag rooms with the 'name' command and alias commands with 'alias'.\nHave fun!"

/-- `alias` handler: adds a new alias to every pair already containing the
given command name. -/
def aliasCmd (command_aliases : CommandAliases) (args : List String) :
    CommandAliases × List String :=
  if args.length < 2 then
    (command_aliases, ["To assign an alias: alias CMQ NEW_ALIAS"])
  else
    let command := toLowerStr (args.headD "")
    let new_alias := toLowerStr ((args.drop 1).headD "")
    let found := command_aliases.any (fun ca => command ∈ ca.1)
    let command_aliases' := command_aliases.map (fun ca =>
      if command ∈ ca.1 then (insertStr new_alias ca.1, ca.2) else ca)
    if found then
      (command_aliases', ["You can use \"" ++ new_alias ++ "\" in lieu of \"" ++ command ++ "\""])
    else
      (command_aliases', ["The commands \"" ++ command ++ "\" does not exist"])

/-- Iterating a `HashSet<Object>` for display: Rust's iteration order is
unspecified, so a fixed canonical order stands in for it. -/
def displayList (s : Invetory) : List String :=
  ([Object.Ladder, Object.Sledge, Object.Gold].filter (· ∈ s)).map Object.display

/-- `look`: the single compound output line (description, floor objects,
exits). Looking at the room uses the panicking index, totalized by `roomAtD`. -/
def look (player : Player) (dungeon : RoomStore) : List String :=
  let room := roomAtD dungeon player.location
  let descPart :=
    match room.description with
    | some description => description
    | none => "Room at " ++ player.location.debugStr ++ "."
  let objPart :=
    if room.objects = ∅ then ""
    else " On the floor you can see: " ++
      String.intercalate ", " (displayList room.objects) ++ "."
  let room_exits := exits_for_room dungeon player.location
  let exitPart :=
    match room_exits with
    | [] => " There are no exits in this room."
    | [e] => " There is one exit: " ++ e.display ++ "."
    | es => " Exits: " ++ String.intercalate ", " (es.map Direction.display) ++ "."
  [descPart ++ objPart ++ exitPart]

/-- `take` handler. -/
def take (player : Player) (dungeon : RoomStore) (args : List String) :
    Player × RoomStore × List String :=
  match args with
  | [] => (player, dungeon, ["To take something: take OBJECT|all"])
  | a :: _ =>
    if (roomAtD dungeon player.location).objects = ∅ then
      (player, dungeon, ["There is nothing to take here"])
    else if a = "all" then
      let room_objects := (roomAtD dungeon player.location).objects
      ({ player with inventory := player.inventory ∪ room_objects },
       updateObjects dungeon player.location (fun _ => ∅),
       ["All items taken"])
    else
      match Object.from_string a with
      | some object =>
        if object ∈ (roomAtD dungeon player.location).objects then
          ({ player with inventory := insert object player.inventory },
           updateObjects dungeon player.location (fun s => s.erase object),
           ["Taken"])
        else
          (player, dungeon, [])
      | none => (player, dungeon, ["You can't see anything like that here"])

/-- `drop` handler. -/
def drop (player : Player) (dungeon : RoomStore) (args : List String) :
    Player × RoomStore × List String :=
  match args with
  | [] => (player, dungeon, ["To drop something: drop OBJECT|all"])
  | a :: _ =>
    if player.inventory = ∅ then
      (player, dungeon, ["You are not carrying anything"])
    else if a = "all" then
      ({ player with inventory := ∅ },
       updateObjects dungeon player.location (fun s => s ∪ player.inventory),
       ["All items dropped"])
    else
      match Object.from_string a with
      | some object =>
        if object ∈ player.inventory then
          ({ player with inventory := player.inventory.erase object },
           updateObjects dungeon player.location (fun s => insert object s),
           ["Dropped"])
        else
          (player, dungeon, [])
      | none => (player, dungeon, ["You don't have anything like that"])

/-- `inventory` handler (display only). -/
def inventoryCmd (player : Player) : List String :=
  if player.inventory = ∅ then
    ["You are not carrying anything"]
  else
    ["You are carrying: " ++
      String.intercalate ", " (displayList player.inventory)]

/-- `dig` handler; `rnd` is the set drawn by `with_random_objects` when a room
is created. The `entry(..).or_insert_with` is the create-if-absent branch. -/
def dig (player : Player) (dungeon : RoomStore) (rnd : Finset Object)
    (args : List String) : RoomStore × List String :=
  match args with
  | [] => (dungeon, ["To dig a tunnel: dig DIRECTION"])
  | a :: _ =>
    match Direction.from_string a with
    | some direction =>
      match player.equipped with
      | some equipped =>
        if equipped = Object.Sledge then
          let target_location := player.location + direction.to_location
          if containsLoc dungeon target_location then
            (dungeon, ["There is already an exit, there!"])
          else
            (dungeon ++ [(target_location, Room.new.with_random_objects rnd)],
             ["There is now an exit " ++ direction.display ++ "ward"])
        else
          (dungeon, ["You cannot dig with " ++ equipped.display])
      | none => (dungeon, ["With your bare hands?"])
    | none => (dungeon, ["That is not a direction I recognize"])

/-- `goto` handler: ladder gate on North, then move iff the target exists. -/
def goto (player : Player) (dungeon : RoomStore) (direction : Direction) :
    Player × List String :=
  if direction = Direction.North ∧
      Object.Ladder ∉ (roomAtD dungeon player.location).objects then
    (player, ["You can't go upwards without a ladder!"])
  else
    let target_location := player.location + direction.to_location
    if ¬ containsLoc dungeon target_location then
      (player, ["There's no exit in that direction!"])
    else
      let player' := { player with location := target_location }
      (player', look player' dungeon)

/-- `equip` handler. -/
def equip (player : Player) (args : List String) : Player × List String :=
  match args with
  | [] => (player, ["To equip something: equip OBJECT"])
  | a :: _ =>
    match Object.from_string a with
    | some object =>
      if object ∈ player.inventory then
        ({ player with equipped := some object }, ["Item equipped"])
      else
        (player, ["You don't have such object"])
    | none => (player, ["You don't have such object"])

/-- `unequip` handler. -/
def unequip (player : Player) : Player × List String :=
  match player.equipped with
  | some _ => ({ player with equipped := none }, ["Unequipped"])
  | none => (player, ["You are already not using anything"])

-- MAIN LOOP STATE: the three mutable values owned by `main`.

structure GameState where
  aliases : CommandAliases
  dungeon : RoomStore
  player : Player
deriving DecidableEq

/-- One dispatch arm of the `match find_command ...` in `main`; `dig` carries
the set the RNG would draw if a room is created. -/
inductive Step where
  | help
  | aliasStep (args : List String)
  | look
  | take (args : List String)
  | drop (args : List String)
  | inventory
  | dig (args : List String) (rnd : Finset Object)
  | equip (args : List String)
  | unequip
  | goto (direction : Direction)

/-- Execute one dispatch arm exactly as `main` calls the handlers. -/
def step (s : GameState) : Step → GameState × List String
  | .help => (s, [helpText])
  | .aliasStep args =>
    let r := aliasCmd s.aliases args
    ({ s with aliases := r.1 }, r.2)
  | .look => (s, look s.player s.dungeon)
  | .take args =>
    let r := take s.player s.dungeon args
    ({ s with player := r.1, dungeon := r.2.1 }, r.2.2)
  | .drop args =>
    let r := drop s.player s.dungeon args
    ({ s with player := r.1, dungeon := r.2.1 }, r.2.2)
  | .inventory => (s, inventoryCmd s.player)
  | .dig args rnd =>
    let r := dig s.player s.dungeon rnd args
    ({ s with dungeon := r.1 }, r.2)
  | .equip args =>
    let r := equip s.player args
    ({ s with player := r.1 }, r.2)
  | .unequip =>
    let r := unequip s.player
    ({ s with player := r.1 }, r.2)
  | .goto direction =>
    let r := goto s.player s.dungeon direction
    ({ s with player := r.1 }, r.2)

/-- Run a sequence of dispatch arms, discarding output. -/
def run (s : GameState) (steps : List Step) : GameState :=
  steps.foldl (fun s st => (step s st).1) s

/-- The state set up at the top of `main`. -/
def initialState : GameState :=
  { aliases := default_aliases,
    dungeon := Dungeon.new,
    player := { location := ⟨0, 0, 0⟩,
                inventory := {Object.Sledge},
                equipped := none } }

-- HELPER LEMMAS (shared).

/-- The canonical parse name of each object, inverse to `Object.from_string`. -/
def Object.name : Object → String
  | .Ladder => "ladder"
  | .Sledge => "sledge"
  | .Gold => "gold"

theorem Object.from_string_name (o : Object) :
    Object.from_string o.name = some o := by cases o <;> rfl

theorem Object.name_ne_all (o : Object) : o.name ≠ "all" := by
  cases o <;> decide

theorem Direction.from_string_display (d : Direction) :
    Direction.from_string d.display = some d := by cases d <;> rfl

theorem containsLoc_updateObjects (d : RoomStore) (l x : Location)
    (f : Invetory → Invetory) :
    containsLoc (updateObjects d l f) x = containsLoc d x := by
  unfold containsLoc updateObjects
  rw [List.any_map]
  congr 1
  funext e
  by_cases h : e.1 = l <;> simp [h, Function.comp]

theorem containsLoc_append (d e : RoomStore) (x : Location) :
    containsLoc (d ++ e) x = (containsLoc d x || containsLoc e x) := by
  simp [containsLoc, List.any_append]

theorem roomAtD_eq_default_of_not_contains (d : RoomStore) (l : Location)
    (h : containsLoc d l = false) : roomAtD d l = Room.new := by
  unfold containsLoc at h
  rw [List.any_eq_false] at h
  unfold roomAtD
  rw [List.find?_eq_none.mpr h]
  rfl

theorem containsLoc_of_mem_roomAtD {d : RoomStore} {l : Location} {o : Object}
    (h : o ∈ (roomAtD d l).objects) : containsLoc d l = true := by
  by_contra hc
  rw [roomAtD_eq_default_of_not_contains d l (by simpa using hc)] at h
  simp [Room.new] at h

theorem roomAtD_updateObjects_self (d : RoomStore) (l : Location)
    (f : Invetory → Invetory) (h : containsLoc d l = true) :
    roomAtD (updateObjects d l f) l
      = { roomAtD d l with objects := f (roomAtD d l).objects } := by
  induction d with
  | nil => simp [containsLoc] at h
  | cons e rest ih =>
    by_cases he : e.1 = l
    · simp [updateObjects, roomAtD, List.find?_cons, he]
    · have h' : containsLoc rest l = true := by
        simpa [containsLoc, List.any_cons, he] using h
      simpa [updateObjects, roomAtD, List.find?_cons, he] using ih h'

theorem filterMap_table (q : Location × Direction → Bool) (p : Direction → Bool)
    (tab : List (Location × Direction)) (h : ∀ e ∈ tab, q e = p e.2) :
    tab.filterMap (fun e => if q e then some e.2 else none)
      = (tab.map Prod.snd).filter p := by
  induction tab with
  | nil => rfl
  | cons e rest ih =>
    have he : q e = p e.2 := h e (by simp)
    have hr := ih (fun x hx => h x (by simp [hx]))
    simp only [List.filterMap_cons, List.map_cons, List.filter_cons]
    cases hq : q e
    · rw [he] at hq; simp [hq, hr]
    · rw [he] at hq; simp [hq, hr]

/-- The direction-to-delta table exactly as the specification words it
(North=(0,-1,0), South=(0,1,0), West=(-1,0,0), East=(1,0,0), Down=(0,0,1),
Up=(0,0,-1)), used to compare `exits_for_room` against the spec. -/
def deltaSpec : Direction → Location
  | .North => ⟨0, -1, 0⟩
  | .South => ⟨0, 1, 0⟩
  | .West => ⟨-1, 0, 0⟩
  | .East => ⟨1, 0, 0⟩
  | .Down => ⟨0, 0, 1⟩
  | .Up => ⟨0, 0, -1⟩

/-- The fixed table order of the six directions as the specification states it. -/
def dirOrder : List Direction :=
  [.North, .South, .West, .East, .Down, .Up]

/-- C4: `exits_for_room` returns exactly those directions whose neighbour
coordinate (current coordinate plus the spec's delta) is a key of the room
store, in the fixed table order North, South, West, East, Down, Up; and the
source's `to_location` deltas agree with the spec's table. -/
theorem exits_for_room_spec (d : RoomStore) (l : Location) :
    exits_for_room d l
      = dirOrder.filter (fun dir => containsLoc d (l + deltaSpec dir))
    ∧ (∀ dir : Direction,
        dir ∈ exits_for_room d l ↔ containsLoc d (l + deltaSpec dir) = true)
    ∧ (∀ dir : Direction, dir.to_location = deltaSpec dir) := by
  have htab : ∀ dir : Direction, dir.to_location = deltaSpec dir := by
    intro dir; cases dir <;> rfl
  have hmain : exits_for_room d l
      = dirOrder.filter (fun dir => containsLoc d (l + deltaSpec dir)) := by
    have h : ∀ e ∈ DIRECTION_MAPPING,
        containsLoc d (l + e.1) = containsLoc d (l + deltaSpec e.2) := by
      intro e he
      simp only [DIRECTION_MAPPING, List.mem_cons, List.mem_singleton] at he
      rcases he with rfl | rfl | rfl | rfl | rfl | rfl | h0
      · rfl
      · rfl
      · rfl
      · rfl
      · rfl
      · rfl
      · cases h0
    exact filterMap_table _ _ DIRECTION_MAPPING h
  refine ⟨hmain, ?_, htab⟩
  intro dir
  rw [hmain, List.mem_filter]
  cases dir <;> simp [dirOrder]

/-- C10: the initial dungeon holds exactly the two fixed rooms, (0,0,0) with
description "The room where it all started..." and objects {Ladder, Sledge},
and (1,1,5) with description "You found it! Lots of gold!" and an empty object
set; consequently any `take` issued at (1,1,5) answers "There is nothing to
take here" and no Gold is on its floor. -/
theorem initial_dungeon_two_rooms :
    Dungeon.new
      = [(⟨0, 0, 0⟩, ⟨some "The room where it all started...",
            {Object.Ladder, Object.Sledge}⟩),
         (⟨1, 1, 5⟩, ⟨some "You found it! Lots of gold!", ∅⟩)]
    ∧ (roomAtD Dungeon.new ⟨1, 1, 5⟩).objects = ∅
    ∧ Object.Gold ∉ (roomAtD Dungeon.new ⟨1, 1, 5⟩).objects
    ∧ ∀ (inv : Invetory) (eqp : Option Object) (a : String) (rest : List String),
        take ⟨⟨1, 1, 5⟩, inv, eqp⟩ Dungeon.new (a :: rest)
          = (⟨⟨1, 1, 5⟩, inv, eqp⟩, Dungeon.new, ["There is nothing to take here"]) := by
  refine ⟨by decide, by decide, by decide, ?_⟩
  intro inv eqp a rest
  simp [take, roomAtD, Dungeon.new, Room.new, Room.with_description, Room.with_objects]

/-- C8 counterexample: in a state whose current room has an empty object set
(the player standing at (1,1,5) of the initial dungeon), `take gold` — "gold"
parsing to an Object that is not present — emits the message "There is nothing
to take here", not no message. -/
theorem take_absent_object_emits_counterexample :
    Object.from_string "gold" = some Object.Gold
    ∧ Object.Gold ∉ (roomAtD Dungeon.new ⟨1, 1, 5⟩).objects
    ∧ (take ⟨⟨1, 1, 5⟩, ∅, none⟩ Dungeon.new ["gold"]).2.2
        = ["There is nothing to take here"]
    ∧ (take ⟨⟨1, 1, 5⟩, ∅, none⟩ Dungeon.new ["gold"]).2.2 ≠ [] := by
  decide

/-- C8 amended: when the current room's object set is non-empty, executing
`take` with an argument parsing to an Object that is not present in the room
emits no message and leaves the player and the room store unchanged. -/
theorem take_absent_object_silent (p : Player) (d : RoomStore) (o : Object)
    (hne : (roomAtD d p.location).objects ≠ ∅)
    (hnotin : o ∉ (roomAtD d p.location).objects) :
    take p d [o.name] = (p, d, []) := by
  have hall : o.name ≠ "all" := Object.name_ne_all o
  simp [take, hne, hall, Object.from_string_name, hnotin]

/-- C8 amended, witness: `take gold` in the starting room (objects
{Ladder, Sledge}, no gold) is a silent no-op. -/
theorem take_absent_object_silent_witness :
    take initialState.player Dungeon.new [Object.Gold.name]
      = (initialState.player, Dungeon.new, []) :=
  take_absent_object_silent initialState.player Dungeon.new Object.Gold
    (by decide) (by decide)

/-- C9: `drop` never changes the equip slot; concretely, from the initial
state, equipping the Sledge and then dropping it leaves the Sledge equipped
and out of the inventory, and a subsequent `dig south` still succeeds,
creating the room at (0,1,0). -/
theorem drop_preserves_equipped :
    (∀ (p : Player) (d : RoomStore) (args : List String),
        ((drop p d args).1).equipped = p.equipped)
    ∧ (let s1 := (step initialState (Step.equip ["sledge"])).1
       let s2 := (step s1 (Step.drop ["sledge"])).1
       s2.player.equipped = some Object.Sledge
       ∧ Object.Sledge ∉ s2.player.inventory
       ∧ (dig s2.player s2.dungeon ∅ ["south"]).2
           = ["There is now an exit southward"]
       ∧ containsLoc (dig s2.player s2.dungeon ∅ ["south"]).1 ⟨0, 1, 0⟩ = true) := by
  constructor
  · intro p d args
    cases args with
    | nil => rfl
    | cons a rest =>
      by_cases h1 : p.inventory = ∅
      · simp [drop, h1]
      · by_cases h2 : a = "all"
        · simp [drop, h1, h2]
        · cases h3 : Object.from_string a with
          | none => simp [drop, h1, h2, h3]
          | some o =>
            by_cases h4 : o ∈ p.inventory <;> simp [drop, h1, h2, h3, h4]
  · decide

/-- C1 counterexample: in the initial state (reachable by the empty command
sequence) the Sledge is both on the floor of room (0,0,0) and already in the
player's inventory; taking it and then dropping it restores the room's object
set but leaves the inventory empty instead of restoring {Sledge}. -/
theorem take_drop_inventory_counterexample :
    Object.Sledge
        ∈ (roomAtD initialState.dungeon initialState.player.location).objects
    ∧ (roomAtD ((step (step initialState (Step.take ["sledge"])).1
          (Step.drop ["sledge"])).1).dungeon initialState.player.location).objects
        = (roomAtD initialState.dungeon initialState.player.location).objects
    ∧ ((step (step initialState (Step.take ["sledge"])).1
          (Step.drop ["sledge"])).1).player.inventory
        ≠ initialState.player.inventory := by
  decide

/-- C1 amended: for every state and every object present in the current room,
taking the object and then dropping it restores the room's object set; the
player's inventory is also restored provided the object was not already in
the inventory before the take. -/
theorem take_then_drop_roundtrip (p : Player) (d : RoomStore) (o : Object)
    (hmem : o ∈ (roomAtD d p.location).objects) :
    (roomAtD (drop (take p d [o.name]).1 (take p d [o.name]).2.1 [o.name]).2.1
        p.location).objects
      = (roomAtD d p.location).objects
    ∧ (o ∉ p.inventory →
        (drop (take p d [o.name]).1 (take p d [o.name]).2.1 [o.name]).1.inventory
          = p.inventory) := by
  have hc : containsLoc d p.location = true := containsLoc_of_mem_roomAtD hmem
  have hne : (roomAtD d p.location).objects ≠ ∅ := Finset.ne_empty_of_mem hmem
  have hall : o.name ≠ "all" := Object.name_ne_all o
  have htake : take p d [o.name]
      = ({ p with inventory := insert o p.inventory },
         updateObjects d p.location (fun s => s.erase o), ["Taken"]) := by
    simp [take, hne, hall, Object.from_string_name, hmem]
  rw [htake]
  have hinv1 : insert o p.inventory ≠ ∅ := by
    exact Finset.ne_empty_of_mem (Finset.mem_insert_self o p.inventory)
  have hdrop : drop { p with inventory := insert o p.inventory }
      (updateObjects d p.location (fun s => s.erase o)) [o.name]
      = ({ p with inventory := (insert o p.inventory).erase o },
         updateObjects (updateObjects d p.location (fun s => s.erase o))
           p.location (fun s => insert o s), ["Dropped"]) := by
    simp [drop, hinv1, hall, Object.from_string_name]
  rw [hdrop]
  have hc1 : containsLoc (updateObjects d p.location (fun s => s.erase o))
      p.location = true := by
    rw [containsLoc_updateObjects]; exact hc
  constructor
  · rw [roomAtD_updateObjects_self _ _ _ hc1, roomAtD_updateObjects_self _ _ _ hc]
    simp [Finset.insert_erase hmem]
  · intro hninv
    simp [Finset.erase_insert hninv]

/-- C1 amended, witness: the Ladder in the starting room (not initially
carried) round-trips: take then drop restores both the room's object set and
the inventory. -/
theorem take_then_drop_roundtrip_witness :
    (roomAtD (drop (take initialState.player Dungeon.new [Object.Ladder.name]).1
        (take initialState.player Dungeon.new [Object.Ladder.name]).2.1
        [Object.Ladder.name]).2.1 initialState.player.location).objects
      = (roomAtD Dungeon.new initialState.player.location).objects
    ∧ (Object.Ladder ∉ initialState.player.inventory →
        (drop (take initialState.player Dungeon.new [Object.Ladder.name]).1
            (take initialState.player Dungeon.new [Object.Ladder.name]).2.1
            [Object.Ladder.name]).1.inventory
          = initialState.player.inventory) :=
  take_then_drop_roundtrip initialState.player Dungeon.new Object.Ladder (by decide)

/-- C3: with a Sledge equipped, digging toward a direction whose target
coordinate already exists leaves the whole room store unchanged (in
particular the target room's description and object set, and no room is
added) and emits only the "already an exit" message. -/
theorem dig_no_overwrite (p : Player) (d : RoomStore) (rnd : Finset Object)
    (dir : Direction)
    (heq : p.equipped = some Object.Sledge)
    (hex : containsLoc d (p.location + dir.to_location) = true) :
    dig p d rnd [dir.display] = (d, ["There is already an exit, there!"])
    ∧ roomAtD (dig p d rnd [dir.display]).1 (p.location + dir.to_location)
        = roomAtD d (p.location + dir.to_location)
    ∧ (dig p d rnd [dir.display]).1.length = d.length := by
  have h : dig p d rnd [dir.display] = (d, ["There is already an exit, there!"]) := by
    simp [dig, Direction.from_string_display, heq, hex]
  exact ⟨h, by rw [h], by rw [h]⟩

/-- C3 witness: at (0,1,0) with a Sledge equipped, digging north toward the
existing room (0,0,0) changes nothing and reports the existing exit. -/
theorem dig_no_overwrite_witness :
    dig ⟨⟨0, 1, 0⟩, ∅, some Object.Sledge⟩ Dungeon.new ∅ [Direction.North.display]
      = (Dungeon.new, ["There is already an exit, there!"])
    ∧ roomAtD (dig ⟨⟨0, 1, 0⟩, ∅, some Object.Sledge⟩ Dungeon.new ∅
          [Direction.North.display]).1
        ((⟨0, 1, 0⟩ : Location) + Direction.North.to_location)
      = roomAtD Dungeon.new ((⟨0, 1, 0⟩ : Location) + Direction.North.to_location)
    ∧ (dig ⟨⟨0, 1, 0⟩, ∅, some Object.Sledge⟩ Dungeon.new ∅
          [Direction.North.display]).1.length = Dungeon.new.length :=
  dig_no_overwrite ⟨⟨0, 1, 0⟩, ∅, some Object.Sledge⟩ Dungeon.new ∅
    Direction.North rfl (by decide)

/-- C5: when the current room's floor has no Ladder, the North movement
command emits "You can't go upwards without a ladder!" and leaves the whole
state unchanged; for each of the other five directions, `goto` is not gated
on a Ladder — the player moves exactly when the target room exists, and the
inventory and equip slot are untouched. -/
theorem goto_north_ladder_gate (s : GameState)
    (h : Object.Ladder ∉ (roomAtD s.dungeon s.player.location).objects) :
    step s (Step.goto Direction.North)
      = (s, ["You can't go upwards without a ladder!"])
    ∧ ∀ dir : Direction, dir ≠ Direction.North →
        ((goto s.player s.dungeon dir).1.location
            = (if containsLoc s.dungeon (s.player.location + dir.to_location) = true
               then s.player.location + dir.to_location else s.player.location))
        ∧ (goto s.player s.dungeon dir).1.inventory = s.player.inventory
        ∧ (goto s.player s.dungeon dir).1.equipped = s.player.equipped := by
  constructor
  · have hg : goto s.player s.dungeon Direction.North
        = (s.player, ["You can't go upwards without a ladder!"]) := by
      simp [goto, h]
    simp [step, hg]
  · intro dir hdir
    have hgate : ¬ (dir = Direction.North
        ∧ Object.Ladder ∉ (roomAtD s.dungeon s.player.location).objects) :=
      fun hh => hdir hh.1
    by_cases hc : containsLoc s.dungeon (s.player.location + dir.to_location) = true
    · simp [goto, hgate, hc]
    · simp [goto, hgate, hc]

/-- C5 witness: a player standing in the bare room at (1,1,5) cannot go
north. -/
theorem goto_north_ladder_gate_witness :
    step { initialState with player := ⟨⟨1, 1, 5⟩, ∅, none⟩ }
        (Step.goto Direction.North)
      = ({ initialState with player := ⟨⟨1, 1, 5⟩, ∅, none⟩ },
         ["You can't go upwards without a ladder!"]) :=
  (goto_north_ladder_gate { initialState with player := ⟨⟨1, 1, 5⟩, ∅, none⟩ }
    (by decide)).1

/-- C6: with a parseable direction argument, `dig` with nothing equipped
answers "With your bare hands?" and changes no state at all, and `dig` with a
non-Sledge object equipped answers "You cannot dig with <equipped>" and
changes no state at all (room store, player location, inventory and equip
slot are all part of the unchanged `GameState`). -/
theorem dig_wrong_equipment_no_change (s : GameState) (dir : Direction)
    (rnd : Finset Object) :
    (s.player.equipped = none →
        step s (Step.dig [dir.display] rnd) = (s, ["With your bare hands?"]))
    ∧ (∀ o : Object, s.player.equipped = some o → o ≠ Object.Sledge →
        step s (Step.dig [dir.display] rnd)
          = (s, ["You cannot dig with " ++ o.display])) := by
  constructor
  · intro h
    have hd : dig s.player s.dungeon rnd [dir.display]
        = (s.dungeon, ["With your bare hands?"]) := by
      simp [dig, Direction.from_string_display, h]
    simp [step, hd]
  · intro o ho hns
    have hd : dig s.player s.dungeon rnd [dir.display]
        = (s.dungeon, ["You cannot dig with " ++ o.display]) := by
      simp [dig, Direction.from_string_display, ho, hns]
    simp [step, hd]

/-- C6 witness: digging south in the initial state (nothing equipped) changes
nothing. -/
theorem dig_wrong_equipment_no_change_witness :
    step initialState (Step.dig [Direction.South.display] ∅)
      = (initialState, ["With your bare hands?"]) :=
  (dig_wrong_equipment_no_change initialState Direction.South ∅).1 rfl

/-- C7: `find_command` lower-cases its token and returns the command of the
first alias-table pair (in table order) whose alias set contains the token
(none when no pair matches); and after `alias take grab` on the default
table, any token lower-casing to "grab" resolves to `Command.Take`. -/
theorem find_command_first_match :
    (∀ (tok : String) (table : CommandAliases) (c : Command),
        find_command tok table = some c ↔
          ∃ pre pr post, table = pre ++ pr :: post
            ∧ toLowerStr tok ∈ pr.1 ∧ pr.2 = c
            ∧ ∀ q ∈ pre, toLowerStr tok ∉ q.1)
    ∧ (∀ s : String, toLowerStr s = "grab" →
        find_command s (aliasCmd default_aliases ["take", "grab"]).1
          = some Command.Take) := by
  constructor
  · intro tok table c
    induction table with
    | nil =>
      constructor
      · intro h
        simp [find_command] at h
      · rintro ⟨pre, pr, post, heq, -, -, -⟩
        exact absurd heq (by simp)
    | cons e rest ih =>
      by_cases he : toLowerStr tok ∈ e.1
      · have hfind : find_command tok (e :: rest) = some e.2 := by
          simp [find_command, List.find?_cons, he]
        rw [hfind]
        constructor
        · intro hc
          refine ⟨[], e, rest, rfl, he, ?_, by simp⟩
          simpa using hc
        · rintro ⟨pre, pr, post, heq, hmem, hc, hpre⟩
          cases pre with
          | nil =>
            simp only [List.nil_append, List.cons.injEq] at heq
            rw [heq.1, hc]
          | cons q pres =>
            simp only [List.cons_append, List.cons.injEq] at heq
            exact absurd (heq.1 ▸ he) (hpre q (by simp))
      · have hfind : find_command tok (e :: rest) = find_command tok rest := by
          simp [find_command, List.find?_cons, he]
        rw [hfind, ih]
        constructor
        · rintro ⟨pre, pr, post, heq, hmem, hc, hpre⟩
          refine ⟨e :: pre, pr, post, by simp [heq], hmem, hc, ?_⟩
          intro q hq
          rcases List.mem_cons.mp hq with rfl | hq'
          · exact he
          · exact hpre q hq'
        · rintro ⟨pre, pr, post, heq, hmem, hc, hpre⟩
          cases pre with
          | nil =>
            simp only [List.nil_append, List.cons.injEq] at heq
            exact absurd (heq.1 ▸ hmem) he
          | cons q pres =>
            simp only [List.cons_append, List.cons.injEq] at heq
            exact ⟨pres, pr, post, heq.2, hmem, hc, fun x hx => hpre x (by simp [hx])⟩
  · intro s h
    simp only [find_command, h]
    decide

/-- C7 witness: the upper-case token "GRAB" resolves to Take after
`alias take grab`. -/
theorem find_command_first_match_witness :
    find_command "GRAB" (aliasCmd default_aliases ["take", "grab"]).1
      = some Command.Take :=
  find_command_first_match.2 "GRAB" (by decide)

/-- The player-location invariant: the current coordinate is a key of the
room store. -/
def locValid (s : GameState) : Prop :=
  containsLoc s.dungeon s.player.location = true

theorem step_preserves_locValid (s : GameState) (st : Step) (h : locValid s) :
    locValid (step s st).1 := by
  cases st with
  | help => exact h
  | look => exact h
  | inventory => exact h
  | aliasStep args => exact h
  | equip args =>
    unfold locValid step
    cases args with
    | nil => exact h
    | cons a rest =>
      cases hfs : Object.from_string a with
      | none => simpa [equip, hfs] using h
      | some o =>
        by_cases hm : o ∈ s.player.inventory <;> simpa [equip, hfs, hm] using h
  | unequip =>
    unfold locValid step
    cases hq : s.player.equipped <;> simpa [unequip, hq] using h
  | take args =>
    unfold locValid step
    cases args with
    | nil => exact h
    | cons a rest =>
      by_cases hempty : (roomAtD s.dungeon s.player.location).objects = ∅
      · simpa [take, hempty] using h
      · by_cases hall : a = "all"
        · simpa [take, hempty, hall, containsLoc_updateObjects] using h
        · cases hfs : Object.from_string a with
          | none => simpa [take, hempty, hall, hfs] using h
          | some o =>
            by_cases hm : o ∈ (roomAtD s.dungeon s.player.location).objects <;>
              simpa [take, hempty, hall, hfs, hm, containsLoc_updateObjects] using h
  | drop args =>
    unfold locValid step
    cases args with
    | nil => exact h
    | cons a rest =>
      by_cases hempty : s.player.inventory = ∅
      · simpa [drop, hempty] using h
      · by_cases hall : a = "all"
        · simpa [drop, hempty, hall, containsLoc_updateObjects] using h
        · cases hfs : Object.from_string a with
          | none => simpa [drop, hempty, hall, hfs] using h
          | some o =>
            by_cases hm : o ∈ s.player.inventory <;>
              simpa [drop, hempty, hall, hfs, hm, containsLoc_updateObjects] using h
  | dig args rnd =>
    unfold locValid step
    cases args with
    | nil => exact h
    | cons a rest =>
      cases hfs : Direction.from_string a with
      | none => simpa [dig, hfs] using h
      | some dir =>
        cases hq : s.player.equipped with
        | none => simpa [dig, hfs, hq] using h
        | some o =>
          by_cases hs : o = Object.Sledge
          · by_cases hc : containsLoc s.dungeon
                (s.player.location + dir.to_location) = true
            · simpa [dig, hfs, hq, hs, hc] using h
            · simp only [dig, hfs, hq, hs, if_true, hc, if_false]
              simpa [containsLoc_append] using Or.inl h
          · simpa [dig, hfs, hq, hs] using h
  | goto dir =>
    unfold locValid step
    by_cases hg : dir = Direction.North
        ∧ Object.Ladder ∉ (roomAtD s.dungeon s.player.location).objects
    · simpa [goto, hg] using h
    · by_cases hc : containsLoc s.dungeon (s.player.location + dir.to_location) = true
      · simp [goto, hg, hc]
      · simpa [goto, hg, hc] using h

theorem locValid_run (steps : List Step) (s : GameState) (h : locValid s) :
    locValid (run s steps) := by
  induction steps generalizing s with
  | nil => exact h
  | cons st rest ih => exact ih _ (step_preserves_locValid s st h)

/-- C2: starting from the initial state (player at (0,0,0), the two initial
rooms present), after any sequence of command-handler steps the player's
current coordinate is a key present in the room store. -/
theorem player_location_always_in_store (steps : List Step) :
    containsLoc (run initialState steps).dungeon
      (run initialState steps).player.location = true := by
  have h0 : locValid initialState := by
    unfold locValid
    decide
  exact locValid_run steps initialState h0

end RCRPG
